import Mathlib

/-!
Verification of the line-grouping / profile-fitting / Doppler-aggregation
pipeline of the Flux-and-Line-Measurement-Script repository.

Wavelengths, fluxes and velocities are embedded as rationals; the Python
dictionaries keyed by ion name are embedded as insertion-ordered
association lists over String keys; fallible code paths (assertion
failures, ZeroDivisionError, sys.exit) are embedded as Except values.
The astropy library objects the code manipulates are embedded by the data
the code reads from them: a Voigt1D model by its four initial parameters,
a fitted compound model by the list of fitted component centers, and the
unit conversion by the optical Doppler formula it implements.
-/

/-! ## Definitions: line grouping (src/emission_lines.py lines 66-98,
src/emission_line.py lines 12-54) -/

/-- Python max(group) on the nonempty wavelength groups built by the
grouper (the default for an empty list is never reached by the code, which
only ever takes the max of a nonempty group). -/
def listMax : List ℚ → ℚ
  | [] => 0
  | x :: xs => xs.foldl max x

/-- The fixed grouping tolerance, set to 10. in
grouping_emission_lines. -/
def tolerance : ℚ := 10

/-- The inner loop over ion_groups[ion] of grouping_emission_lines
(src/emission_lines.py lines 85-96): append the wavelength to the first
group whose current maximum is within tolerance; if no close group was
found, append a fresh singleton group at the end. -/
def addToGroups : List (List ℚ) → ℚ → List (List ℚ)
  | [], wavelength => [[wavelength]]
  | g :: gs, wavelength =>
    if |listMax g - wavelength| ≤ tolerance then (g ++ [wavelength]) :: gs
    else g :: addToGroups gs wavelength

/-- One catalog row of the body of grouping_emission_lines (lines 81-96):
if the ion is not yet a key of the dictionary, bind it to [[wavelength]];
otherwise run the close-group search on its group list.  The Python dict
is embedded as an insertion-ordered association list, so a new key goes to
the end. -/
def insertLine : List (String × List (List ℚ)) → String → ℚ → List (String × List (List ℚ))
  | [], ion, wavelength => [(ion, [[wavelength]])]
  | (i, gs) :: rest, ion, wavelength =>
    if i = ion then (i, addToGroups gs wavelength) :: rest
    else (i, gs) :: insertLine rest ion wavelength

/-- grouping_emission_lines (src/emission_lines.py lines 66-98): iterate
the catalog rows in their given order, skip rows below min_wavelength, and
insert the remaining rows into the per-ion group dictionary. -/
def grouping_emission_lines (min_wavelength : ℚ) (rest_lam_data : List (String × ℚ)) :
    List (String × List (List ℚ)) :=
  rest_lam_data.foldl
    (fun ion_groups row =>
      if row.2 < min_wavelength then ion_groups
      else insertLine ion_groups row.1 row.2)
    []

/-- The membership test of the spec: a group accepts a wavelength when its
current maximum m satisfies that the absolute difference of m and the
wavelength is at most 10. -/
def closeGroup (wavelength : ℚ) (g : List ℚ) : Bool :=
  decide (|listMax g - wavelength| ≤ tolerance)

/-- Formalisation of the description of one grouping step, written from
the words of the claim: the wavelength joins the FIRST existing group
whose current maximum is within tolerance (the groups before it are
exactly the non-matching initial segment); if no such group exists (in
particular on the very first wavelength of an ion, where the group list is
empty) a new singleton group [wavelength] is appended. -/
def specGroupStep (gs : List (List ℚ)) (wavelength : ℚ) : List (List ℚ) :=
  match gs.dropWhile (fun g => !closeGroup wavelength g) with
  | [] => gs ++ [[wavelength]]
  | g :: rest => gs.takeWhile (fun g => !closeGroup wavelength g) ++ (g ++ [wavelength]) :: rest

/-- Lookup in the insertion-ordered association list embedding a Python
dictionary. -/
def dictLookup {α : Type} : List (String × α) → String → Option α
  | [], _ => none
  | (k, v) :: rest, ion => if k = ion then some v else dictLookup rest ion

/-- The catalog rows of a given ion that survive the cutoff, in catalog
order: the sequence of wavelengths from which the group list of that ion
is built. -/
def ionWavelengths (min_wavelength : ℚ) (rest_lam_data : List (String × ℚ))
    (ion : String) : List ℚ :=
  (rest_lam_data.filter
      (fun row => row.1 == ion && decide (min_wavelength ≤ row.2))).map Prod.snd

/-- The group list the spec predicts for one ion: fold the spec-level step
over the surviving wavelengths of that ion, starting from the group list
already present (none when the ion has never been seen, in which case an
ion with no surviving rows stays absent from the mapping). -/
def specIonGroups (start : Option (List (List ℚ))) (ws : List ℚ) : Option (List (List ℚ)) :=
  match start with
  | some gs => some (ws.foldl specGroupStep gs)
  | none => if ws.isEmpty then none else some (ws.foldl specGroupStep [])

/-- Checks a group against the chain-tolerance invariant: walking the
group from its first element, every later element is within tolerance of
the running maximum of the elements inserted before it. -/
def chainAux : ℚ → List ℚ → Bool
  | _, [] => true
  | m, y :: ys => decide (|m - y| ≤ tolerance) && chainAux (max m y) ys

/-- chainOk g holds when every element of g after the first was within
tolerance of the running maximum at its insertion time. -/
def chainOk : List ℚ → Bool
  | [] => true
  | x :: xs => chainAux x xs

/-- Invariant of the group lists of one ion: every group satisfies the
chain-tolerance invariant and contains no wavelength below the cutoff. -/
def groupsInv (min_wavelength : ℚ) (gs : List (List ℚ)) : Prop :=
  ∀ g ∈ gs, chainOk g = true ∧ ∀ x ∈ g, min_wavelength ≤ x

/-- The same invariant over the whole ion dictionary. -/
def dictInv (min_wavelength : ℚ) (d : List (String × List (List ℚ))) : Prop :=
  ∀ e ∈ d, groupsInv min_wavelength e.2

/-- The fields of the spectrum object read by
EmissionLines.grouping_emission_lines (src/emission_line.py lines 27
and 32). -/
structure Spectrum where
  rest_lam_data : List (String × ℚ)
  min_wavelength : ℚ

namespace EmissionLines

/-- The inner group loop of the class method
EmissionLines.grouping_emission_lines (src/emission_line.py lines 41-52),
textually the same algorithm as the free function. -/
def addToGroups : List (List ℚ) → ℚ → List (List ℚ)
  | [], wavelength => [[wavelength]]
  | g :: gs, wavelength =>
    if |listMax g - wavelength| ≤ tolerance then (g ++ [wavelength]) :: gs
    else g :: addToGroups gs wavelength

/-- One catalog row of the class method (src/emission_line.py
lines 35-52). -/
def insertLine : List (String × List (List ℚ)) → String → ℚ → List (String × List (List ℚ))
  | [], ion, wavelength => [(ion, [[wavelength]])]
  | (i, gs) :: rest, ion, wavelength =>
    if i = ion then (i, addToGroups gs wavelength) :: rest
    else (i, gs) :: insertLine rest ion wavelength

/-- EmissionLines.grouping_emission_lines (src/emission_line.py
lines 12-54), reading the catalog and cutoff from its spectrum. -/
def grouping_emission_lines (spectrum : Spectrum) : List (String × List (List ℚ)) :=
  spectrum.rest_lam_data.foldl
    (fun ion_groups row =>
      if row.2 < spectrum.min_wavelength then ion_groups
      else insertLine ion_groups row.1 row.2)
    []

end EmissionLines

/-! ## Definitions: Doppler aggregation (src/emission_lines.py
lines 190-213) -/

/-- The speed of light in km/s used by the astropy unit conversion. -/
def c_kms : ℚ := 299792.458

/-- The conversion u_obs_lam.to(u.km/u.s,
equivalencies=u.doppler_optical(u_rest_lam)) applied at line 205: the
optical Doppler relation v = c * (obs - rest) / rest.  astropy is an
external collaborator of the repository; this is its documented optical
velocity convention. -/
def doppler_optical (rest_lam obs_lam : ℚ) : ℚ :=
  c_kms * (obs_lam - rest_lam) / rest_lam

/-- The inner loop of doppler_shift_calc for one accepted group
(lines 196-206): convert each (rest, observed) wavelength pair to a
velocity and average them, sum(group_doppler)/len(group_doppler). -/
def group_velocity (rest obs : List ℚ) : ℚ :=
  ((rest.zip obs).map fun p => doppler_optical p.1 p.2).sum / ((rest.zip obs).length : ℚ)

/-- The list dv of per-accepted-group velocities accumulated by
doppler_shift_calc (lines 193-206): one mean velocity for every index
whose classification decision is true. -/
def dv_list (doppler_bool_list : List Bool)
    (rest_candidates obs_candidates : List (List ℚ)) : List ℚ :=
  (doppler_bool_list.zip (rest_candidates.zip obs_candidates)).filterMap
    fun p => if p.1 then some (group_velocity p.2.1 p.2.2) else none

/-- The distinct fatal outcomes of the aggregation stage of
doppler_shift_calc: the assert at line 190 (no decision recorded), the
assert at line 191 (decision count differs from candidate count), and the
ZeroDivisionError raised by sum(dv)/len(dv) at line 207 when no group was
accepted.  Each Python failure carries its own diagnostic, so the three
constructors are kept distinct. -/
inductive DopplerError where
  | noDecisions
  | countMismatch
  | zeroAccepted
deriving DecidableEq

/-- The aggregation stage of doppler_shift_calc (lines 190-207): check the
two asserted preconditions, build dv, and either fail on an empty dv or
return the mean of dv. -/
def doppler_shift_calc (doppler_bool_list : List Bool)
    (rest_candidates obs_candidates : List (List ℚ)) : Except DopplerError ℚ :=
  if doppler_bool_list.length = 0 then .error .noDecisions
  else if doppler_bool_list.length ≠ rest_candidates.length then .error .countMismatch
  else
    let dv := dv_list doppler_bool_list rest_candidates obs_candidates
    if dv.length = 0 then .error .zeroAccepted
    else .ok (dv.sum / (dv.length : ℚ))

/-! ## Definitions: windows, masks and the composite Voigt model
(src/emission_lines.py lines 41-54 and 111-146,
src/spec2flux/spectrum_data.py lines 203-212) -/

/-- The per-peak seed mask of line 120, applied to one sample position x:
(w > wavelength - peak_width/2) & (w < wavelength + peak_width/2). -/
def wavelength_mask (wavelength peak_width x : ℚ) : Bool :=
  decide (wavelength - peak_width / 2 < x) && decide (x < wavelength + peak_width / 2)

/-- The per-group fit mask of line 117, applied to one sample position x:
(w > group[0] - peak_width) & (w < group[len(group)-1] + peak_width). -/
def group_mask (group : List ℚ) (peak_width x : ℚ) : Bool :=
  decide (group.getD 0 0 - peak_width < x) &&
    decide (x < group.getD (group.length - 1) 0 + peak_width)

/-- f[wavelength_mask]: the fluxes of the spectrum samples selected by the
per-peak seed mask around one rest wavelength (line 123 reads their
maximum as the initial amplitude). -/
def seed_fluxes (w f : List ℚ) (peak_width wavelength : ℚ) : List ℚ :=
  ((w.zip f).filter fun p => wavelength_mask wavelength peak_width p.1).map Prod.snd

/-- The four initial parameters the code passes to the astropy Voigt1D
constructor at line 128. -/
structure Voigt1D where
  x_0 : ℚ
  amplitude_L : ℚ
  fwhm_L : ℚ
  fwhm_G : ℚ
deriving DecidableEq

/-- np.max over a flux selection (line 123): on an empty selection numpy
raises a ValueError, embedded as none; on a nonempty one it returns the
maximum. -/
def np_max : List ℚ → Option ℚ
  | [] => none
  | x :: xs => some (xs.foldl max x)

/-- The voigt_profiles list built for one group (lines 116-129); the
additive composite model of lines 144-146 is embedded as the list of its
components, so the component count is the list length.  The ValueError
raised by np.max at line 123 when a seed window selects no sample is NOT
caught by the try at line 149 (which only guards the fitter call), so the
whole construction aborts: that is the none outcome. -/
def voigt_profiles (w f : List ℚ) (peak_width : ℚ) : List ℚ → Option (List Voigt1D)
  | [] => some []
  | wavelength :: rest =>
    match np_max (seed_fluxes w f peak_width wavelength),
        voigt_profiles w f peak_width rest with
    | some amp, some comps =>
      some ({ x_0 := wavelength, amplitude_L := amp, fwhm_L := 1 / 10, fwhm_G := 1 / 10 } :: comps)
    | _, _ => none

/-- peak_width_finder (src/emission_lines.py lines 41-54): pick the coarse
peak width from the grating string, double it for the flux range, and
floor-divide by the wavelength step of the first two samples for the pixel
width.  The tuple is returned in source order
(peak_width, peak_width_pixels, flux_range). -/
def peak_width_finder (grating : String) (wavelength_data : List ℚ) : ℚ × ℤ × ℚ :=
  let peak_width : ℚ := if grating.contains 'L' then 5 else 1 / 2
  let flux_range : ℚ := 2 * peak_width
  let angstroms_to_pixels : ℚ := wavelength_data.getD 1 0 - wavelength_data.getD 0 0
  (peak_width, ⌊peak_width / angstroms_to_pixels⌋, flux_range)

/-- PEAK_WIDTH_LOW_RES = 5.0 Angstroms
(src/spec2flux/spectrum_data.py line 18). -/
def PEAK_WIDTH_LOW_RES : ℚ := 5

/-- PEAK_WIDTH_HIGH_RES = 0.5 Angstroms
(src/spec2flux/spectrum_data.py line 19). -/
def PEAK_WIDTH_HIGH_RES : ℚ := 1 / 2

namespace SpectrumData

/-- SpectrumData.peak_width_finder (src/spec2flux/spectrum_data.py
lines 203-212), keyed off the resolution string instead of the grating
string. -/
def peak_width_finder (resolution : String) (wavelength_data : List ℚ) : ℚ × ℤ × ℚ :=
  let peak_width : ℚ := if resolution = "HIGH" then PEAK_WIDTH_LOW_RES else PEAK_WIDTH_HIGH_RES
  let flux_range : ℚ := 2 * peak_width
  let angstroms_to_pixels : ℚ := wavelength_data.getD 1 0 - wavelength_data.getD 0 0
  (peak_width, ⌊peak_width / angstroms_to_pixels⌋, flux_range)

end SpectrumData

/-! ## Definitions: the per-group fitting loop of doppler_shift_calc
(src/emission_lines.py lines 111-188) -/

/-- The accumulators the fitting loop appends to: the four lists feeding
classification and Doppler aggregation, plus the emission_line_list record
list that is appended to before the fit is attempted. -/
structure PipelineState where
  rest_candidates : List (List ℚ)
  obs_candidates : List (List ℚ)
  emission_line_objs : List (String × List ℚ)
  emission_line_list : List (String × List ℚ)
  classified_groups : List (String × List ℚ)
deriving DecidableEq

/-- All accumulators start empty (lines 12-14 and 112). -/
def initState : PipelineState := ⟨[], [], [], [], []⟩

/-- One iteration of the per-group loop of doppler_shift_calc
(lines 114-188).  The nonlinear solver is abstracted as an oracle from the
ion and group to either the list of fitted component centers (the observed
wavelengths read at lines 174-178) or none for a RuntimeError.  The
emission_line record is appended to emission_line_list before the fit
(line 141); on solver failure the except-branch continues to the next
group (lines 154-155), so nothing else is appended; on success the
candidate is recorded, shown for classification, and its rest and observed
wavelength lists are appended. -/
def process_group (fit : String → List ℚ → Option (List ℚ)) (st : PipelineState)
    (ion : String) (group : List ℚ) : PipelineState :=
  let st1 := { st with emission_line_list := st.emission_line_list ++ [(ion, group)] }
  match fit ion group with
  | none => st1
  | some centers =>
    { st1 with
      emission_line_objs := st1.emission_line_objs ++ [(ion, group)]
      classified_groups := st1.classified_groups ++ [(ion, group)]
      rest_candidates := st1.rest_candidates ++ [group]
      obs_candidates := st1.obs_candidates ++ [centers] }

/-- The whole fitting loop: fold the per-group iteration over the
flattened group sequence. -/
def run_pipeline (fit : String → List ℚ → Option (List ℚ))
    (groups : List (String × List ℚ)) : PipelineState :=
  groups.foldl (fun st g => process_group fit st g.1 g.2) initState

/-- Equality of everything the downstream stages (classification and
Doppler aggregation) can observe: all accumulators except the pre-fit
emission_line_list record list. -/
def sameOutputs (s t : PipelineState) : Prop :=
  s.rest_candidates = t.rest_candidates ∧ s.obs_candidates = t.obs_candidates
    ∧ s.emission_line_objs = t.emission_line_objs
    ∧ s.classified_groups = t.classified_groups

/-- A concrete solver oracle used to instantiate the per-candidate failure
theorem: it fails on every group of ion X and fits every other group at
its rest wavelengths. -/
def exampleFit : String → List ℚ → Option (List ℚ) :=
  fun ion group => if ion = "X" then none else some group

/-! ## Definitions: the key-press classifier callback
(src/emission_lines.py lines 225-240) -/

/-- The two sys.exit outcomes of on_key: a purpose other than the two
known purposes, and a key outside valid_keys.  Each Python exit carries
its own message, so the two constructors are kept distinct. -/
inductive ExitError where
  | invalidPurpose
  | invalidKey
deriving DecidableEq

/-- valid_keys = the set of the key strings y and n (line 226). -/
def valid_keys : List String := ["y", "n"]

/-- on_key (lines 225-240): exit on an unknown purpose, exit on a key
outside valid_keys, otherwise append (key == y) to the decision list
selected by the purpose.  The two module-level decision lists are passed
and returned explicitly. -/
def on_key (key purpose : String) (noise_bool_list doppler_bool_list : List Bool) :
    Except ExitError (List Bool × List Bool) :=
  if purpose ∉ ["Noise Detection", "Doppler Calculation"] then
    Except.error ExitError.invalidPurpose
  else if key ∉ valid_keys then
    Except.error ExitError.invalidKey
  else if purpose = "Noise Detection" then
    Except.ok (noise_bool_list ++ [decide (key = "y")], doppler_bool_list)
  else
    Except.ok (noise_bool_list, doppler_bool_list ++ [decide (key = "y")])

/-! ## Helper lemmas -/

theorem addToGroups_eq_specGroupStep (gs : List (List ℚ)) (wavelength : ℚ) :
    addToGroups gs wavelength = specGroupStep gs wavelength := by
  induction gs with
  | nil => rfl
  | cons g gs ih =>
    by_cases h : |listMax g - wavelength| ≤ tolerance
    · simp [addToGroups, specGroupStep, closeGroup, h, List.dropWhile_cons, List.takeWhile_cons]
    · rw [addToGroups, if_neg h, ih]
      rw [specGroupStep, specGroupStep]
      have hc : closeGroup wavelength g = false := by simp [closeGroup, h]
      simp only [List.dropWhile_cons, List.takeWhile_cons, hc, Bool.not_false, if_true]
      cases hd : gs.dropWhile (fun g => !closeGroup wavelength g) with
      | nil => simp
      | cons a rest => simp

theorem dictLookup_insertLine_self (d : List (String × List (List ℚ))) (ion : String) (w : ℚ) :
    dictLookup (insertLine d ion w) ion =
      some (specGroupStep ((dictLookup d ion).getD []) w) := by
  induction d with
  | nil => simp [insertLine, dictLookup, specGroupStep, List.dropWhile]
  | cons e rest ih =>
    obtain ⟨k, gs⟩ := e
    by_cases h : k = ion
    · subst h
      simp [insertLine, dictLookup, addToGroups_eq_specGroupStep]
    · simp [insertLine, dictLookup, h, ih]

theorem dictLookup_insertLine_ne (d : List (String × List (List ℚ))) (ion ion' : String)
    (w : ℚ) (h : ion' ≠ ion) :
    dictLookup (insertLine d ion w) ion' = dictLookup d ion' := by
  induction d with
  | nil => simp [insertLine, dictLookup, Ne.symm h]
  | cons e rest ih =>
    obtain ⟨k, gs⟩ := e
    by_cases hk : k = ion
    · subst hk
      simp [insertLine, dictLookup, Ne.symm h]
    · simp [insertLine, dictLookup, hk, ih]

theorem grouping_loop_lookup (min_wavelength : ℚ) (rows : List (String × ℚ)) (ion : String) :
    ∀ d : List (String × List (List ℚ)),
    dictLookup (rows.foldl (fun ion_groups row =>
        if row.2 < min_wavelength then ion_groups
        else insertLine ion_groups row.1 row.2) d) ion =
      specIonGroups (dictLookup d ion) (ionWavelengths min_wavelength rows ion) := by
  induction rows with
  | nil =>
    intro d
    cases h : dictLookup d ion with
    | none => simp [ionWavelengths, specIonGroups, h]
    | some gs => simp [ionWavelengths, specIonGroups, h]
  | cons row rows ih =>
    intro d
    obtain ⟨i, w⟩ := row
    by_cases hmin : w < min_wavelength
    · have hf : ¬ min_wavelength ≤ w := not_le.mpr hmin
      simp only [List.foldl_cons, if_pos hmin]
      rw [ih d]
      simp [ionWavelengths, List.filter_cons, hf]
    · have hle : min_wavelength ≤ w := not_lt.mp hmin
      simp only [List.foldl_cons, if_neg hmin]
      rw [ih (insertLine d i w)]
      by_cases hion : i = ion
      · subst hion
        rw [dictLookup_insertLine_self]
        have hws : ionWavelengths min_wavelength ((i, w) :: rows) i =
            w :: ionWavelengths min_wavelength rows i := by
          simp [ionWavelengths, List.filter_cons, hle]
        rw [hws]
        cases h : dictLookup d i with
        | none => simp [specIonGroups, h]
        | some gs => simp [specIonGroups, h]
      · rw [dictLookup_insertLine_ne d i ion w (Ne.symm hion)]
        have hws : ionWavelengths min_wavelength ((i, w) :: rows) ion =
            ionWavelengths min_wavelength rows ion := by
          simp [ionWavelengths, List.filter_cons, hion]
        rw [hws]

theorem chainAux_snoc (ys : List ℚ) (m w : ℚ) :
    chainAux m (ys ++ [w]) = (chainAux m ys && decide (|ys.foldl max m - w| ≤ tolerance)) := by
  induction ys generalizing m with
  | nil => simp [chainAux]
  | cons y ys ih =>
    simp only [List.cons_append, chainAux, List.append_eq, ih, List.foldl_cons, Bool.and_assoc]

theorem chainOk_snoc (g : List ℚ) (w : ℚ) (h1 : chainOk g = true)
    (h2 : |listMax g - w| ≤ tolerance) : chainOk (g ++ [w]) = true := by
  cases g with
  | nil => simp [chainOk, chainAux]
  | cons x xs =>
    rw [List.cons_append, chainOk, chainAux_snoc]
    rw [chainOk] at h1
    have h2' : |List.foldl max x xs - w| ≤ tolerance := h2
    simp [h1, h2']

theorem addToGroups_inv {min_wavelength w : ℚ} {gs : List (List ℚ)}
    (hw : min_wavelength ≤ w) (h : groupsInv min_wavelength gs) :
    groupsInv min_wavelength (addToGroups gs w) := by
  induction gs with
  | nil =>
    intro g hg
    simp only [addToGroups, List.mem_singleton] at hg
    subst hg
    exact ⟨by simp [chainOk, chainAux], by simpa using hw⟩
  | cons g gs ih =>
    by_cases hc : |listMax g - w| ≤ tolerance
    · rw [addToGroups, if_pos hc]
      intro g' hg'
      rcases List.mem_cons.mp hg' with h1 | h1
      · subst h1
        obtain ⟨hch, hmem⟩ := h g (List.mem_cons_self g gs)
        refine ⟨chainOk_snoc g w hch hc, ?_⟩
        intro x hx
        rcases List.mem_append.mp hx with hx | hx
        · exact hmem x hx
        · simp only [List.mem_singleton] at hx
          subst hx
          exact hw
      · exact h g' (List.mem_cons_of_mem g h1)
    · rw [addToGroups, if_neg hc]
      intro g' hg'
      rcases List.mem_cons.mp hg' with h1 | h1
      · subst h1
        exact h g' (List.mem_cons_self g' gs)
      · exact ih (fun x hx => h x (List.mem_cons_of_mem g hx)) g' h1

theorem insertLine_inv {min_wavelength w : ℚ} {d : List (String × List (List ℚ))}
    {ion : String} (hw : min_wavelength ≤ w) (h : dictInv min_wavelength d) :
    dictInv min_wavelength (insertLine d ion w) := by
  induction d with
  | nil =>
    intro e he
    simp only [insertLine, List.mem_singleton] at he
    subst he
    intro g hg
    simp only [List.mem_singleton] at hg
    subst hg
    exact ⟨by simp [chainOk, chainAux], by simpa using hw⟩
  | cons e rest ih =>
    obtain ⟨k, gs⟩ := e
    by_cases hk : k = ion
    · subst hk
      rw [insertLine, if_pos rfl]
      intro e' he'
      rcases List.mem_cons.mp he' with h1 | h1
      · subst h1
        exact addToGroups_inv hw (h (k, gs) (List.mem_cons_self _ _))
      · exact h e' (List.mem_cons_of_mem _ h1)
    · rw [insertLine, if_neg hk]
      intro e' he'
      rcases List.mem_cons.mp he' with h1 | h1
      · subst h1
        exact h (k, gs) (List.mem_cons_self _ _)
      · exact ih (fun x hx => h x (List.mem_cons_of_mem _ hx)) e' h1

theorem grouping_inv (min_wavelength : ℚ) (rows : List (String × ℚ)) :
    dictInv min_wavelength (grouping_emission_lines min_wavelength rows) := by
  rw [grouping_emission_lines]
  have main : ∀ (rows : List (String × ℚ)) (d : List (String × List (List ℚ))),
      dictInv min_wavelength d →
      dictInv min_wavelength (rows.foldl (fun ion_groups row =>
        if row.2 < min_wavelength then ion_groups
        else insertLine ion_groups row.1 row.2) d) := by
    intro rows
    induction rows with
    | nil => intro d hd; exact hd
    | cons row rows ih =>
      intro d hd
      simp only [List.foldl_cons]
      by_cases hmin : row.2 < min_wavelength
      · rw [if_pos hmin]; exact ih d hd
      · rw [if_neg hmin]
        exact ih _ (insertLine_inv (not_lt.mp hmin) hd)
  exact main rows [] (by intro e he; simp at he)

theorem emissionLines_addToGroups_eq (gs : List (List ℚ)) (w : ℚ) :
    EmissionLines.addToGroups gs w = addToGroups gs w := by
  induction gs with
  | nil => rfl
  | cons g gs ih =>
    by_cases h : |listMax g - w| ≤ tolerance
    · simp [EmissionLines.addToGroups, addToGroups, h]
    · simp [EmissionLines.addToGroups, addToGroups, h, ih]

theorem emissionLines_insertLine_eq (d : List (String × List (List ℚ))) (ion : String) (w : ℚ) :
    EmissionLines.insertLine d ion w = insertLine d ion w := by
  induction d with
  | nil => rfl
  | cons e rest ih =>
    obtain ⟨k, gs⟩ := e
    by_cases h : k = ion
    · simp [EmissionLines.insertLine, insertLine, h, emissionLines_addToGroups_eq]
    · simp [EmissionLines.insertLine, insertLine, h, ih]

theorem mem_zip_self {α : Type} (l : List α) (p : α × α) (h : p ∈ l.zip l) : p.1 = p.2 := by
  induction l with
  | nil => simp [List.zip] at h
  | cons a l ih =>
    rcases List.mem_cons.mp h with h1 | h1
    · rw [h1]
    · exact ih h1

theorem group_velocity_self (rest : List ℚ) : group_velocity rest rest = 0 := by
  rw [group_velocity]
  have hz : ((rest.zip rest).map fun p => doppler_optical p.1 p.2).sum = 0 := by
    apply List.sum_eq_zero
    intro x hx
    obtain ⟨p, hp, hpx⟩ := List.mem_map.mp hx
    rw [← hpx, doppler_optical, mem_zip_self rest p hp]
    ring
  rw [hz, zero_div]

theorem dv_list_all_zero (bools : List Bool) (rest obs : List (List ℚ))
    (h : ∀ p ∈ bools.zip (rest.zip obs), p.1 = true → p.2.1 = p.2.2) :
    ∀ v ∈ dv_list bools rest obs, v = 0 := by
  intro v hv
  obtain ⟨p, hp, hfp⟩ := List.mem_filterMap.mp hv
  by_cases hb : p.1 = true
  · rw [if_pos hb] at hfp
    obtain hfp := Option.some_inj.mp hfp
    rw [← hfp, h p hp hb, group_velocity_self]
  · rw [if_neg hb] at hfp
    exact absurd hfp (Option.some_ne_none _).symm

theorem dv_list_ne_nil (bools : List Bool) (rest obs : List (List ℚ))
    (h1 : bools.length = rest.length) (h2 : rest.length = obs.length)
    (ht : true ∈ bools) : dv_list bools rest obs ≠ [] := by
  intro hnil
  rw [dv_list, List.filterMap_eq_nil_iff] at hnil
  obtain ⟨i, hi, hbi⟩ := List.mem_iff_getElem.mp ht
  have hlen : (bools.zip (rest.zip obs)).length = bools.length := by
    simp [h1, h2]
  have hiz : i < (bools.zip (rest.zip obs)).length := by rw [hlen]; exact hi
  have hmem := List.getElem_mem hiz
  have hfst : (bools.zip (rest.zip obs))[i].1 = true := by
    rw [List.getElem_zip]
    exact hbi
  have := hnil _ hmem
  rw [if_pos hfst] at this
  exact (Option.some_ne_none _) this

theorem sorted_head_le (l : List ℚ) (hs : l.Sorted (· ≤ ·)) :
    ∀ y ∈ l, l.getD 0 0 ≤ y := by
  cases l with
  | nil => intro y hy; simp at hy
  | cons a t =>
    intro y hy
    rcases List.mem_cons.mp hy with h | h
    · subst h
      simp [List.getD]
    · exact (List.sorted_cons.mp hs).1 y h

theorem sorted_le_last (l : List ℚ) (hs : l.Sorted (· ≤ ·)) :
    ∀ y ∈ l, y ≤ l.getD (l.length - 1) 0 := by
  induction l with
  | nil => intro y hy; simp at hy
  | cons a t ih =>
    obtain ⟨ha, ht⟩ := List.sorted_cons.mp hs
    intro y hy
    cases t with
    | nil =>
      simp only [List.mem_singleton] at hy
      simp [hy]
    | cons b t' =>
      have hlen : (b :: t').length - 1 < (b :: t').length := by simp
      have hlast : (a :: b :: t').getD ((a :: b :: t').length - 1) 0 =
          (b :: t').getD ((b :: t').length - 1) 0 := by
        simp [List.getD]
      have hmem : (b :: t').getD ((b :: t').length - 1) 0 ∈ b :: t' := by
        rw [List.getD_eq_getElem _ _ hlen]
        exact List.getElem_mem hlen
      rcases List.mem_cons.mp hy with h | h
      · subst h
        rw [hlast]
        exact ha _ hmem
      · rw [hlast]
        exact ih ht y h

theorem process_group_sameOutputs (fit : String → List ℚ → Option (List ℚ))
    (s t : PipelineState) (ion : String) (group : List ℚ) (h : sameOutputs s t) :
    sameOutputs (process_group fit s ion group) (process_group fit t ion group) := by
  obtain ⟨h1, h2, h3, h4⟩ := h
  rw [process_group, process_group]
  cases fit ion group with
  | none => exact ⟨h1, h2, h3, h4⟩
  | some centers => exact ⟨by simp [h1], by simp [h2], by simp [h3], by simp [h4]⟩

theorem foldl_sameOutputs (fit : String → List ℚ → Option (List ℚ))
    (groups : List (String × List ℚ)) :
    ∀ s t : PipelineState, sameOutputs s t →
    sameOutputs (groups.foldl (fun st g => process_group fit st g.1 g.2) s)
      (groups.foldl (fun st g => process_group fit st g.1 g.2) t) := by
  induction groups with
  | nil => intro s t h; exact h
  | cons g groups ih =>
    intro s t h
    simp only [List.foldl_cons]
    exact ih _ _ (process_group_sameOutputs fit s t g.1 g.2 h)

/-! ## Claim theorems -/

/-- C1: for every catalog iterated in its given order and every cutoff,
the grouper produces exactly the mapping described by the spec: for every
ion, its entry is the fold of the spec-level step (join the first existing
group whose current maximum is within 10, else append a new singleton
group; a first-seen ion always starts a new group) over its surviving
wavelengths, and an ion with no surviving rows is absent.  In particular
the three-line O_I catalog yields the single group
[1302.0, 1304.5, 1306.0]. -/
theorem claim_C1_grouping_functional :
    (∀ (min_wavelength : ℚ) (rest_lam_data : List (String × ℚ)) (ion : String),
      dictLookup (grouping_emission_lines min_wavelength rest_lam_data) ion =
        specIonGroups none (ionWavelengths min_wavelength rest_lam_data ion))
    ∧ grouping_emission_lines 0 [("O_I", 1302), ("O_I", 1304.5), ("O_I", 1306)] =
        [("O_I", [[1302, 1304.5, 1306]])] := by
  constructor
  · intro min_wavelength rows ion
    rw [grouping_emission_lines, grouping_loop_lookup min_wavelength rows ion []]
    rfl
  · norm_num [grouping_emission_lines, insertLine, addToGroups, listMax, tolerance, abs_le]

/-- C2: each accepted group velocity is the arithmetic mean over its
(rest, observed) pairs of the optical Doppler velocity
v = c (obs - rest) / rest; a successful aggregate is the arithmetic mean
of the accepted group velocities; and when every accepted pair has
observed wavelength equal to its rest wavelength the final shift is
exactly zero. -/
theorem claim_C2_doppler_velocity_mean :
    (∀ rest obs : List ℚ,
      group_velocity rest obs =
        ((rest.zip obs).map fun p => c_kms * (p.2 - p.1) / p.1).sum / ((rest.zip obs).length : ℚ))
    ∧ (∀ (bools : List Bool) (rest obs : List (List ℚ)) (q : ℚ),
        doppler_shift_calc bools rest obs = .ok q →
        q = (dv_list bools rest obs).sum / ((dv_list bools rest obs).length : ℚ))
    ∧ (∀ (bools : List Bool) (rest obs : List (List ℚ)),
        bools.length = rest.length → rest.length = obs.length →
        (∀ p ∈ bools.zip (rest.zip obs), p.1 = true → p.2.1 = p.2.2) →
        true ∈ bools →
        doppler_shift_calc bools rest obs = .ok 0) := by
  refine ⟨?_, ?_, ?_⟩
  · intro rest obs
    rfl
  · intro bools rest obs q hq
    rw [doppler_shift_calc] at hq
    by_cases h0 : bools.length = 0
    · rw [if_pos h0] at hq; exact absurd hq (by simp)
    · rw [if_neg h0] at hq
      by_cases h1 : bools.length ≠ rest.length
      · rw [if_pos h1] at hq; exact absurd hq (by simp)
      · rw [if_neg h1] at hq
        by_cases h2 : (dv_list bools rest obs).length = 0
        · simp only [h2, if_pos] at hq
          exact absurd hq (by simp)
        · simp only [h2, if_neg, reduceIte] at hq
          exact (Except.ok.injEq _ _ ▸ hq).symm
  · intro bools rest obs h1 h2 hz ht
    have hne : bools.length ≠ 0 := by
      intro h0
      rw [List.length_eq_zero] at h0
      subst h0
      simp at ht
    have hdv : dv_list bools rest obs ≠ [] := dv_list_ne_nil bools rest obs h1 h2 ht
    have hsum : (dv_list bools rest obs).sum = 0 :=
      List.sum_eq_zero (dv_list_all_zero bools rest obs hz)
    rw [doppler_shift_calc, if_neg hne, if_neg (by rw [h1]; exact fun h => h rfl)]
    simp only [List.length_eq_zero]
    rw [if_neg hdv, hsum, zero_div]

/-- C2 witness: one accepted singleton group with observed wavelength
equal to its rest wavelength aggregates to exactly zero. -/
theorem claim_C2_doppler_velocity_mean_witness :
    doppler_shift_calc [true] [[1302]] [[1302]] = .ok 0 :=
  claim_C2_doppler_velocity_mean.2.2 [true] [[1302]] [[1302]] rfl rfl
    (by
      intro p hp
      simp only [List.zip_cons_cons, List.zip_nil_right, List.mem_singleton] at hp
      subst hp
      intro
      rfl)
    (by simp)

/-- C3: the Doppler estimator fails, producing no aggregate value, when
zero decisions were recorded, when the decision count differs from the
candidate count, and when zero groups were accepted (rather than silently
returning zero), and the three fatal diagnostics are pairwise distinct, so
the failing invariant is identified. -/
theorem claim_C3_doppler_failure_modes :
    (∀ rest obs : List (List ℚ),
      doppler_shift_calc [] rest obs = .error DopplerError.noDecisions)
    ∧ (∀ (bools : List Bool) (rest obs : List (List ℚ)),
        bools ≠ [] → bools.length ≠ rest.length →
        doppler_shift_calc bools rest obs = .error DopplerError.countMismatch)
    ∧ (∀ (bools : List Bool) (rest obs : List (List ℚ)),
        bools ≠ [] → bools.length = rest.length →
        (∀ b ∈ bools, b = false) →
        doppler_shift_calc bools rest obs = .error DopplerError.zeroAccepted)
    ∧ DopplerError.noDecisions ≠ DopplerError.countMismatch
    ∧ DopplerError.noDecisions ≠ DopplerError.zeroAccepted
    ∧ DopplerError.countMismatch ≠ DopplerError.zeroAccepted := by
  refine ⟨?_, ?_, ?_, by decide, by decide, by decide⟩
  · intro rest obs
    rw [doppler_shift_calc]
    simp
  · intro bools rest obs hne hmm
    rw [doppler_shift_calc, if_neg (by simpa [List.length_eq_zero] using hne), if_pos hmm]
  · intro bools rest obs hne hlen hall
    have hdv : dv_list bools rest obs = [] := by
      rw [dv_list, List.filterMap_eq_nil_iff]
      intro p hp
      have hpb : p.1 ∈ bools := (List.of_mem_zip hp).1
      rw [if_neg (by rw [hall p.1 hpb]; exact Bool.false_ne_true)]
    rw [doppler_shift_calc, if_neg (by simpa [List.length_eq_zero] using hne),
      if_neg (fun h => h hlen)]
    simp only [hdv, List.length_nil, if_pos]

/-- C3 witness: a decision-count mismatch and an all-rejected run each
fail with their own diagnostic. -/
theorem claim_C3_doppler_failure_modes_witness :
    doppler_shift_calc [true] [] [] = .error DopplerError.countMismatch
    ∧ doppler_shift_calc [false] [[1302]] [[1302]] = .error DopplerError.zeroAccepted :=
  ⟨claim_C3_doppler_failure_modes.2.1 [true] [] [] (by simp) (by simp),
   claim_C3_doppler_failure_modes.2.2.1 [false] [[1302]] [[1302]] (by simp) (by simp) (by simp)⟩

/-- C4 counterexample: for the group [1400] over a spectrum sampled at
1300 and 1301 with half-width 5, the narrow seed window (1397.5, 1402.5)
selects no sample, so np.max raises an uncaught ValueError and the builder
constructs nothing, refuting the claim that every line group yields a
composite model with one component per rest wavelength. -/
theorem claim_C4_profile_model_builder_counterexample :
    voigt_profiles [1300, 1301] [2, 3] 5 [1400] = none := by
  norm_num [voigt_profiles, np_max, seed_fluxes, wavelength_mask]

/-- C4 (amended): for every line group each of whose rest wavelengths has
at least one spectrum sample in its narrow (half_width/2) seed window, the
builder constructs one component per rest wavelength — center the
uncorrected rest wavelength, amplitude the maximum observed flux in that
seed window, both width parameters 0.1 — summed into one composite whose
component count equals the group size; a singleton group yields a
single-component model.  (When some seed window is empty the builder
aborts with the uncaught ValueError instead.) -/
theorem claim_C4_profile_model_builder :
    ∀ (w f : List ℚ) (peak_width : ℚ) (group : List ℚ),
    (∀ wavelength ∈ group, seed_fluxes w f peak_width wavelength ≠ []) →
    voigt_profiles w f peak_width group =
      some (group.map fun wavelength =>
        { x_0 := wavelength
          amplitude_L := listMax (seed_fluxes w f peak_width wavelength)
          fwhm_L := 1 / 10
          fwhm_G := 1 / 10 })
    ∧ (∀ comps : List Voigt1D,
        voigt_profiles w f peak_width group = some comps →
        comps.length = group.length
        ∧ ∀ i : ℕ, comps[i]? = (group[i]?).map fun wavelength =>
            { x_0 := wavelength
              amplitude_L := listMax (seed_fluxes w f peak_width wavelength)
              fwhm_L := 1 / 10
              fwhm_G := 1 / 10 })
    ∧ (∀ wavelength : ℚ, group = [wavelength] →
        voigt_profiles w f peak_width group =
          some [{ x_0 := wavelength
                  amplitude_L := listMax (seed_fluxes w f peak_width wavelength)
                  fwhm_L := 1 / 10
                  fwhm_G := 1 / 10 }]) := by
  have main : ∀ (w f : List ℚ) (peak_width : ℚ) (group : List ℚ),
      (∀ wavelength ∈ group, seed_fluxes w f peak_width wavelength ≠ []) →
      voigt_profiles w f peak_width group =
        some (group.map fun wavelength =>
          { x_0 := wavelength
            amplitude_L := listMax (seed_fluxes w f peak_width wavelength)
            fwhm_L := 1 / 10
            fwhm_G := 1 / 10 }) := by
    intro w f peak_width group
    induction group with
    | nil => intro _; rfl
    | cons a rest ih =>
      intro h
      have ha : seed_fluxes w f peak_width a ≠ [] := h a (List.mem_cons_self _ _)
      have hnp : np_max (seed_fluxes w f peak_width a) =
          some (listMax (seed_fluxes w f peak_width a)) := by
        cases hsf : seed_fluxes w f peak_width a with
        | nil => exact absurd hsf ha
        | cons x xs => simp [np_max, listMax]
      rw [voigt_profiles, hnp, ih (fun wl hwl => h wl (List.mem_cons_of_mem _ hwl))]
      rfl
  intro w f peak_width group hne
  refine ⟨main w f peak_width group hne, ?_, ?_⟩
  · intro comps hcomps
    rw [main w f peak_width group hne] at hcomps
    obtain hcomps := Option.some_inj.mp hcomps
    subst hcomps
    exact ⟨by simp, by intro i; simp [List.getElem?_map]⟩
  · intro wavelength hgl
    subst hgl
    rw [main w f peak_width [wavelength] hne]
    rfl

/-- C4 witness: a singleton group at 1301 over a spectrum sampled at 1300
and 1301 has a nonempty seed window, and the builder returns exactly its
one component. -/
theorem claim_C4_profile_model_builder_witness :
    voigt_profiles [1300, 1301] [2, 3] 5 [1301] =
      some ([(1301 : ℚ)].map fun wavelength =>
        { x_0 := wavelength
          amplitude_L := listMax (seed_fluxes [1300, 1301] [2, 3] 5 wavelength)
          fwhm_L := 1 / 10
          fwhm_G := 1 / 10 }) :=
  (claim_C4_profile_model_builder [1300, 1301] [2, 3] 5 [1301]
    (by
      intro wavelength hwl
      simp only [List.mem_singleton] at hwl
      subst hwl
      have hev : seed_fluxes [1300, 1301] [2, 3] 5 1301 = [2, 3] := by
        norm_num [seed_fluxes, wavelength_mask]
      rw [hev]
      exact List.cons_ne_nil _ _)).1

/-- C5: when the solver fails on a candidate, the run produces exactly the
observable outputs of the run without that candidate: the same rest and
observed wavelength lists, the same fitted-candidate records, the same
classified groups, hence the same Doppler aggregate for every decision
list; the only trace of the failed candidate is the record appended before
the fit was attempted, and the groups after it are still processed. -/
theorem claim_C5_solver_failure_skips_candidate :
    ∀ (fit : String → List ℚ → Option (List ℚ))
      (pre post : List (String × List ℚ)) (ion : String) (group : List ℚ),
    fit ion group = none →
    sameOutputs (run_pipeline fit (pre ++ (ion, group) :: post))
      (run_pipeline fit (pre ++ post))
    ∧ (∀ st : PipelineState, process_group fit st ion group =
        { st with emission_line_list := st.emission_line_list ++ [(ion, group)] })
    ∧ (∀ bools : List Bool,
        doppler_shift_calc bools
          (run_pipeline fit (pre ++ (ion, group) :: post)).rest_candidates
          (run_pipeline fit (pre ++ (ion, group) :: post)).obs_candidates =
        doppler_shift_calc bools (run_pipeline fit (pre ++ post)).rest_candidates
          (run_pipeline fit (pre ++ post)).obs_candidates) := by
  intro fit pre post ion group hfail
  have key : sameOutputs (run_pipeline fit (pre ++ (ion, group) :: post))
      (run_pipeline fit (pre ++ post)) := by
    rw [run_pipeline, run_pipeline, List.foldl_append, List.foldl_append, List.foldl_cons]
    apply foldl_sameOutputs
    rw [process_group, hfail]
    exact ⟨rfl, rfl, rfl, rfl⟩
  refine ⟨key, ?_, ?_⟩
  · intro st
    rw [process_group, hfail]
  · intro bools
    rw [key.1, key.2.1]

/-- C5 witness: with an oracle failing on the X group, running the
pipeline on [X, Y] yields the same observable outputs as running it on
[Y] alone. -/
theorem claim_C5_solver_failure_skips_candidate_witness :
    sameOutputs (run_pipeline exampleFit [("X", [1302]), ("Y", [1550])])
      (run_pipeline exampleFit [("Y", [1550])]) :=
  (claim_C5_solver_failure_skips_candidate exampleFit [] [("Y", [1550])] "X" [1302]
    (by simp [exampleFit])).1

/-- C6: during Doppler classification, a key outside the two valid keys
terminates the run with the invalid-key error, while the key y records an
accept decision and the key n records a reject decision appended to the
Doppler decision list. -/
theorem claim_C6_key_press_handling :
    ∀ (key : String) (noise_bool_list doppler_bool_list : List Bool),
    (key ∉ valid_keys →
      on_key key "Doppler Calculation" noise_bool_list doppler_bool_list =
        Except.error ExitError.invalidKey)
    ∧ on_key "y" "Doppler Calculation" noise_bool_list doppler_bool_list =
        Except.ok (noise_bool_list, doppler_bool_list ++ [true])
    ∧ on_key "n" "Doppler Calculation" noise_bool_list doppler_bool_list =
        Except.ok (noise_bool_list, doppler_bool_list ++ [false]) := by
  intro key noise_bool_list doppler_bool_list
  refine ⟨?_, ?_, ?_⟩
  · intro hk
    rw [on_key, if_neg (by simp), if_pos hk]
  · rw [on_key, if_neg (by simp), if_neg (by simp [valid_keys]), if_neg (by simp)]
    simp
  · rw [on_key, if_neg (by simp), if_neg (by simp [valid_keys]), if_neg (by simp)]
    simp

/-- C6 witness: the key q is fatal during Doppler classification. -/
theorem claim_C6_key_press_handling_witness :
    on_key "q" "Doppler Calculation" [] [] = Except.error ExitError.invalidKey :=
  (claim_C6_key_press_handling "q" [] []).1 (by simp [valid_keys])

/-- C7: the fit mask selects exactly the spectrum samples in the open
interval from the first group wavelength minus the half-width to the last
group wavelength plus the half-width (for a sorted group the first and
last elements are its minimum and maximum, so the group spans them); the
per-peak seed mask selects exactly the samples in the open interval of
half-width peak_width/2 around the individual rest wavelength. -/
theorem claim_C7_fit_and_seed_masks :
    ∀ (w group : List ℚ) (peak_width x wavelength : ℚ),
    (x ∈ w.filter (group_mask group peak_width) ↔
      x ∈ w ∧ x ∈ Set.Ioo (group.getD 0 0 - peak_width)
        (group.getD (group.length - 1) 0 + peak_width))
    ∧ (group.Sorted (· ≤ ·) → ∀ y ∈ group,
        group.getD 0 0 ≤ y ∧ y ≤ group.getD (group.length - 1) 0)
    ∧ (x ∈ w.filter (wavelength_mask wavelength peak_width) ↔
      x ∈ w ∧ x ∈ Set.Ioo (wavelength - peak_width / 2) (wavelength + peak_width / 2)) := by
  intro w group peak_width x wavelength
  refine ⟨?_, ?_, ?_⟩
  · simp [List.mem_filter, group_mask, Set.mem_Ioo]
  · intro hs y hy
    exact ⟨sorted_head_le group hs y hy, sorted_le_last group hs y hy⟩
  · simp [List.mem_filter, wavelength_mask, Set.mem_Ioo]

/-- C7 witness: in the sorted group [1302, 1306] every member lies between
the first and the last element. -/
theorem claim_C7_fit_and_seed_masks_witness :
    [(1302 : ℚ), 1306].getD 0 0 ≤ 1302
    ∧ (1302 : ℚ) ≤ [(1302 : ℚ), 1306].getD ([(1302 : ℚ), 1306].length - 1) 0 :=
  (claim_C7_fit_and_seed_masks [] [(1302 : ℚ), 1306] 5 0 0).2.1
    (by norm_num [List.sorted_cons]) 1302 (by simp)

/-- C8: for every grating or resolution string and every wavelength array
with at least two samples, both window builders return a half-width equal
to one of the two fixed constants 5.0 and 0.5, a flux range of exactly
twice the half-width, and a pixel half-width equal to the floor of the
half-width divided by the first wavelength step; the result depends only
on the first two samples, so it is computed once per run. -/
theorem claim_C8_peak_width_finder :
    ∀ (grating resolution : String) (w0 w1 : ℚ) (rest rest' : List ℚ),
    ((peak_width_finder grating (w0 :: w1 :: rest)).1 = 5 ∨
      (peak_width_finder grating (w0 :: w1 :: rest)).1 = 1 / 2)
    ∧ (peak_width_finder grating (w0 :: w1 :: rest)).2.2 =
        2 * (peak_width_finder grating (w0 :: w1 :: rest)).1
    ∧ (peak_width_finder grating (w0 :: w1 :: rest)).2.1 =
        ⌊(peak_width_finder grating (w0 :: w1 :: rest)).1 / (w1 - w0)⌋
    ∧ peak_width_finder grating (w0 :: w1 :: rest') =
        peak_width_finder grating (w0 :: w1 :: rest)
    ∧ ((SpectrumData.peak_width_finder resolution (w0 :: w1 :: rest)).1 = 5 ∨
      (SpectrumData.peak_width_finder resolution (w0 :: w1 :: rest)).1 = 1 / 2)
    ∧ (SpectrumData.peak_width_finder resolution (w0 :: w1 :: rest)).2.2 =
        2 * (SpectrumData.peak_width_finder resolution (w0 :: w1 :: rest)).1
    ∧ (SpectrumData.peak_width_finder resolution (w0 :: w1 :: rest)).2.1 =
        ⌊(SpectrumData.peak_width_finder resolution (w0 :: w1 :: rest)).1 / (w1 - w0)⌋
    ∧ SpectrumData.peak_width_finder resolution (w0 :: w1 :: rest') =
        SpectrumData.peak_width_finder resolution (w0 :: w1 :: rest) := by
  intro grating resolution w0 w1 rest rest'
  by_cases hg : grating.contains 'L' <;>
    by_cases hr : resolution = "HIGH" <;>
      simp [peak_width_finder, SpectrumData.peak_width_finder, PEAK_WIDTH_LOW_RES,
        PEAK_WIDTH_HIGH_RES, hg, hr, List.getD]

/-- C9: every group of every grouping output contains no wavelength below
the cutoff, and satisfies the chain-tolerance invariant (each element
after the first was within 10 of the running maximum at insertion time);
the raw distance of consecutive elements can still exceed the tolerance,
as the group [1300, 1291, 1305] produced by a concrete catalog shows. -/
theorem claim_C9_grouping_invariants :
    (∀ (min_wavelength : ℚ) (rows : List (String × ℚ))
        (e : String × List (List ℚ)) (g : List ℚ),
        e ∈ grouping_emission_lines min_wavelength rows → g ∈ e.2 →
        (∀ x ∈ g, min_wavelength ≤ x) ∧ chainOk g = true)
    ∧ grouping_emission_lines 0 [("X", 1300), ("X", 1291), ("X", 1305)] =
        [("X", [[1300, 1291, 1305]])]
    ∧ chainOk [1300, 1291, 1305] = true
    ∧ ¬ |(1305 : ℚ) - 1291| ≤ tolerance := by
  refine ⟨?_, ?_, ?_, ?_⟩
  · intro min_wavelength rows e g he hg
    obtain ⟨h1, h2⟩ := grouping_inv min_wavelength rows e he g hg
    exact ⟨h2, h1⟩
  · norm_num [grouping_emission_lines, insertLine, addToGroups, listMax, tolerance, abs_le]
  · norm_num [chainOk, chainAux, tolerance, abs_le, max_def]
  · norm_num [tolerance, abs_le]

/-- C9 witness: the single group produced from the O_I catalog with cutoff
0 respects the cutoff and the chain-tolerance invariant. -/
theorem claim_C9_grouping_invariants_witness :
    (∀ x ∈ [(1302 : ℚ), 1304.5, 1306], (0 : ℚ) ≤ x)
    ∧ chainOk [1302, 1304.5, 1306] = true :=
  claim_C9_grouping_invariants.1 0 [("O_I", 1302), ("O_I", 1304.5), ("O_I", 1306)]
    ("O_I", [[1302, 1304.5, 1306]]) [1302, 1304.5, 1306]
    (by
      have h : grouping_emission_lines 0 [("O_I", 1302), ("O_I", 1304.5), ("O_I", 1306)] =
          [("O_I", [[1302, 1304.5, 1306]])] := by
        norm_num [grouping_emission_lines, insertLine, addToGroups, listMax, tolerance, abs_le]
      rw [h]
      simp)
    (by simp)

/-- C10: the free function grouping_emission_lines and the EmissionLines
class method are extensionally equal: for every spectrum they return the
same ion-to-group-list mapping. -/
theorem claim_C10_grouping_implementations_agree :
    ∀ spectrum : Spectrum,
    EmissionLines.grouping_emission_lines spectrum =
      grouping_emission_lines spectrum.min_wavelength spectrum.rest_lam_data := by
  intro spectrum
  rw [EmissionLines.grouping_emission_lines, grouping_emission_lines]
  simp only [emissionLines_insertLine_eq]
